import Mathlib

/-!
Verification of the "Doctor AI" EHR GRU notebook (`DrAI_pytorch.ipynb`).

The notebook's tensors are shallowly embedded as total entry functions
over the reals together with their explicit dimensions; every tensor
operation used by the notebook (`torch.matmul`, bias broadcasting,
elementwise `sigmoid`/`tanh`, `F.softmax` along a given dimension,
`torch.sum` along a dimension, `torch.mean`, Hadamard products, the
padding loops with Python slice semantics) is defined below following
the source line by line.  Float arithmetic is idealised as real
arithmetic, and the stochastic elements of the code (the `torch.randn`
draws made when `build_EHRNN.forward` constructs fresh `EHRNN` cells,
and the realised dropout multiplier) are passed in explicitly.
-/

set_option maxHeartbeats 1000000

namespace DrAI

/-- A rank-1 tensor: a dimension together with a total entry function. -/
structure T1 where
  d0 : ℕ
  ent : ℕ → ℝ

/-- A rank-2 tensor. -/
structure T2 where
  d0 : ℕ
  d1 : ℕ
  ent : ℕ → ℕ → ℝ

/-- A rank-3 tensor. -/
structure T3 where
  d0 : ℕ
  d1 : ℕ
  d2 : ℕ
  ent : ℕ → ℕ → ℕ → ℝ

/-- `torch.sigmoid`. -/
noncomputable def sigmoid (x : ℝ) : ℝ := 1 / (1 + Real.exp (-x))

/-- `torch.matmul` of two matrices; the inner summation ranges over the
column count of the left factor. -/
noncomputable def matmul2 (a b : T2) : T2 :=
  ⟨a.d0, b.d1, fun i j => ∑ k in Finset.range a.d1, a.ent i k * b.ent k j⟩

/-- `torch.matmul` of a rank-3 tensor with a matrix (batched over the
first two dimensions, as in `torch.matmul(x, W)`). -/
noncomputable def matmul32 (a : T3) (b : T2) : T3 :=
  ⟨a.d0, a.d1, b.d1, fun t i j => ∑ k in Finset.range a.d2, a.ent t i k * b.ent k j⟩

/-- Broadcast addition of a bias vector along the last dimension of a
rank-2 tensor. -/
def addBias2 (a : T2) (b : T1) : T2 :=
  ⟨a.d0, a.d1, fun i j => a.ent i j + b.ent j⟩

/-- Broadcast addition of a bias vector along the last dimension of a
rank-3 tensor. -/
def addBias3 (a : T3) (b : T1) : T3 :=
  ⟨a.d0, a.d1, a.d2, fun t i j => a.ent t i j + b.ent j⟩

/-- Elementwise addition (dimensions taken from the left operand, which
is how every use in the notebook has matching shapes). -/
def add2 (a b : T2) : T2 := ⟨a.d0, a.d1, fun i j => a.ent i j + b.ent i j⟩

/-- Elementwise (Hadamard) product of two rank-2 tensors. -/
def mul2 (a b : T2) : T2 := ⟨a.d0, a.d1, fun i j => a.ent i j * b.ent i j⟩

/-- `1. - a` : scalar minus tensor, elementwise. -/
def oneSub2 (a : T2) : T2 := ⟨a.d0, a.d1, fun i j => 1 - a.ent i j⟩

/-- Elementwise application of a scalar function to a rank-2 tensor. -/
def map2 (f : ℝ → ℝ) (a : T2) : T2 := ⟨a.d0, a.d1, fun i j => f (a.ent i j)⟩

/-- Elementwise application of a scalar function to a rank-3 tensor. -/
def map3 (f : ℝ → ℝ) (a : T3) : T3 :=
  ⟨a.d0, a.d1, a.d2, fun t i j => f (a.ent t i j)⟩

/-- The slice `a[t]` of a rank-3 tensor along its first dimension. -/
def slice3 (a : T3) (t : ℕ) : T2 := ⟨a.d1, a.d2, fun i j => a.ent t i j⟩

/-- `F.softmax(a, dim=1)` on a rank-3 tensor: each entry is its
exponential divided by the sum of exponentials along dimension 1. -/
noncomputable def softmaxDim1 (a : T3) : T3 :=
  ⟨a.d0, a.d1, a.d2, fun t i j =>
    Real.exp (a.ent t i j) / ∑ b in Finset.range a.d1, Real.exp (a.ent t b j)⟩

/-- `a * mask[:, :, None]` : broadcast Hadamard product of a rank-3
tensor with a rank-2 mask. -/
def maskMul (a : T3) (m : T2) : T3 :=
  ⟨a.d0, a.d1, a.d2, fun t i j => a.ent t i j * m.ent t i⟩

/-- Elementwise product of a rank-3 tensor with a raw multiplier
function (used for the realised dropout multiplier). -/
def mulEnt3 (d : ℕ → ℕ → ℕ → ℝ) (a : T3) : T3 :=
  ⟨a.d0, a.d1, a.d2, fun t i j => d t i j * a.ent t i j⟩

/-- `torch.sum(a, dim=0)` on a rank-3 tensor. -/
noncomputable def sumDim0 (a : T3) : T2 :=
  ⟨a.d1, a.d2, fun i j => ∑ t in Finset.range a.d0, a.ent t i j⟩

/-- `torch.sum(a, dim=1)` on a rank-2 tensor. -/
noncomputable def sumDim1 (a : T2) : T1 :=
  ⟨a.d0, fun i => ∑ j in Finset.range a.d1, a.ent i j⟩

/-- `torch.mean` of a rank-1 tensor. -/
noncomputable def meanT1 (a : T1) : ℝ :=
  (∑ i in Finset.range a.d0, a.ent i) / (a.d0 : ℝ)

/-- `torch.mean` of a rank-2 tensor. -/
noncomputable def meanT2 (a : T2) : ℝ :=
  (∑ i in Finset.range a.d0, ∑ j in Finset.range a.d1, a.ent i j) / ((a.d0 : ℝ) * (a.d1 : ℝ))

/-- `(w ** 2).sum()` over all entries of a matrix. -/
noncomputable def sumSq2 (a : T2) : ℝ :=
  ∑ i in Finset.range a.d0, ∑ j in Finset.range a.d1, a.ent i j ^ 2

/-- Elementwise division of a rank-1 tensor by
`torch.cuda.FloatTensor(lengths)` (the integer lengths cast to float). -/
noncomputable def divLengths (a : T1) (lengths : List ℤ) : T1 :=
  ⟨a.d0, fun i => a.ent i / ((lengths.getD i 0 : ℤ) : ℝ)⟩

/-- The `EHRNN` module of the notebook: hyperparameters together with
the current values of its nine gate tensors (`__init__` creates the six
weight matrices with `torch.randn` and the three biases with
`torch.zeros`, each wrapped in `nn.Parameter`). -/
structure EHRNN where
  inputDimSize : ℕ
  hiddenDimSize : ℕ
  embSize : ℕ
  batchSize : ℕ
  numClass : ℕ
  wzEnt : ℕ → ℕ → ℝ
  wrEnt : ℕ → ℕ → ℝ
  whEnt : ℕ → ℕ → ℝ
  uzEnt : ℕ → ℕ → ℝ
  urEnt : ℕ → ℕ → ℝ
  uhEnt : ℕ → ℕ → ℝ
  bzEnt : ℕ → ℝ
  brEnt : ℕ → ℝ
  bhEnt : ℕ → ℝ

namespace EHRNN

/-- `self.W_z = nn.Parameter(torch.randn(embSize, hiddenDimSize))`. -/
def W_z (c : EHRNN) : T2 := ⟨c.embSize, c.hiddenDimSize, c.wzEnt⟩

/-- `self.W_r`. -/
def W_r (c : EHRNN) : T2 := ⟨c.embSize, c.hiddenDimSize, c.wrEnt⟩

/-- `self.W_h`. -/
def W_h (c : EHRNN) : T2 := ⟨c.embSize, c.hiddenDimSize, c.whEnt⟩

/-- `self.U_z = nn.Parameter(torch.randn(hiddenDimSize, hiddenDimSize))`. -/
def U_z (c : EHRNN) : T2 := ⟨c.hiddenDimSize, c.hiddenDimSize, c.uzEnt⟩

/-- `self.U_r`. -/
def U_r (c : EHRNN) : T2 := ⟨c.hiddenDimSize, c.hiddenDimSize, c.urEnt⟩

/-- `self.U_h`. -/
def U_h (c : EHRNN) : T2 := ⟨c.hiddenDimSize, c.hiddenDimSize, c.uhEnt⟩

/-- `self.b_z = nn.Parameter(torch.zeros(hiddenDimSize))`. -/
def b_z (c : EHRNN) : T1 := ⟨c.hiddenDimSize, c.bzEnt⟩

/-- `self.b_r`. -/
def b_r (c : EHRNN) : T1 := ⟨c.hiddenDimSize, c.brEnt⟩

/-- `self.b_h`. -/
def b_h (c : EHRNN) : T1 := ⟨c.hiddenDimSize, c.bhEnt⟩

/-- `EHRNN.forward(self, emb, h)`:
`z = sigmoid(emb @ W_z + h @ U_z + b_z)`,
`r = sigmoid(emb @ W_r + h @ U_r + b_r)`,
`h_tilde = tanh(emb @ W_h + (r * h) @ U_h + b_h)`,
returns `z * h + (1 - z) * h_tilde`. -/
noncomputable def forward (c : EHRNN) (emb h : T2) : T2 :=
  let z := map2 sigmoid (addBias2 (add2 (matmul2 emb c.W_z) (matmul2 h c.U_z)) c.b_z)
  let r := map2 sigmoid (addBias2 (add2 (matmul2 emb c.W_r) (matmul2 h c.U_r)) c.b_r)
  let ht := map2 Real.tanh
    (addBias2 (add2 (matmul2 emb c.W_h) (matmul2 (mul2 r h) c.U_h)) c.b_h)
  add2 (mul2 z h) (mul2 (oneSub2 z) ht)

/-- `EHRNN.init_hidden`: `torch.zeros(batchSize, hiddenDimSize)`. -/
def init_hidden (c : EHRNN) : T2 := ⟨c.batchSize, c.hiddenDimSize, fun _ _ => 0⟩

end EHRNN

/-- The six `torch.randn` draws consumed by one `EHRNN(...)`
construction inside `build_EHRNN.forward` (the three biases start at
`torch.zeros` and take no randomness). -/
structure RandSource where
  wz : ℕ → ℕ → ℝ
  wr : ℕ → ℕ → ℝ
  wh : ℕ → ℕ → ℝ
  uz : ℕ → ℕ → ℝ
  ur : ℕ → ℕ → ℝ
  uh : ℕ → ℕ → ℝ

/-- `EHRNN(inputDimSize, hiddenSize, embSize, batchSize, numClass)`:
a freshly constructed cell whose weight matrices hold the given
`torch.randn` draws and whose biases are zero. -/
def mkEHRNN (inputDimSize hiddenDimSize embSize batchSize numClass : ℕ)
    (r : RandSource) : EHRNN :=
  ⟨inputDimSize, hiddenDimSize, embSize, batchSize, numClass,
   r.wz, r.wr, r.wh, r.uz, r.ur, r.uh,
   fun _ => 0, fun _ => 0, fun _ => 0⟩

/-- The end index of the Python slice `a[:e]` on a dimension of size
`n`: non-negative `e` is clamped to `n`, a negative `e` counts from the
end (clamped below at `0`). -/
def pySliceEnd (n : ℕ) (e : ℤ) : ℕ :=
  if 0 ≤ e then min e.toNat n else ((n : ℤ) + e).toNat

/-- `np.max` over a list of integers (the notebook only applies it to a
non-empty batch; the empty case is given the junk value `0`). -/
def listMaxI : List ℤ → ℤ
  | [] => 0
  | a :: t => t.foldl max a

/-- The mutable state threaded through `padding`'s sample loop: the
entry functions of the `x`, `y` and `mask` tensors being filled in. -/
structure PadState where
  x : ℕ → ℕ → ℕ → ℝ
  y : ℕ → ℕ → ℕ → ℝ
  mask : ℕ → ℕ → ℝ

/-- One iteration of `for xvec, subseq in zip(...)`: the row `t0` of
sample `idx` gets `1.` written at every code index of `visit`
(`xvec[subseq] = 1.`). -/
def writeRow (g : ℕ → ℕ → ℕ → ℝ) (t0 idx : ℕ) (visit : List ℕ) :
    ℕ → ℕ → ℕ → ℝ :=
  fun t i c => if t = t0 ∧ i = idx ∧ c ∈ visit then 1 else g t i c

/-- The loop `for xvec, subseq in zip(tensor[:, idx, :], visits)`,
writing consecutive rows starting at `t0`. -/
def writeRows (idx : ℕ) : List (List ℕ) → ℕ → (ℕ → ℕ → ℕ → ℝ) →
    ℕ → ℕ → ℕ → ℝ
  | [], _, g => g
  | v :: rest, t0, g => writeRows idx rest (t0 + 1) (writeRow g t0 idx v)

/-- `mask[:e, idx] = 1.` -/
def writeMaskCol (g : ℕ → ℕ → ℝ) (idx e : ℕ) : ℕ → ℕ → ℝ :=
  fun t i => if i = idx ∧ t < e then 1 else g t i

/-- The body of `padding`'s `for idx, (seq, label) in enumerate(zip(seqs,
labels))` loop for one sample: `zip` with the `maxlen` tensor rows
truncates `seq[:-1]` and `label[1:]` to at most `M` visits, and
`mask[:lengths[idx], idx] = 1.` uses Python slice semantics on the
integer `lengths[idx]`. -/
def writeSample (M idx : ℕ) (p : List (List ℕ) × List (List ℕ))
    (st : PadState) : PadState :=
  ⟨writeRows idx (p.1.dropLast.take M) 0 st.x,
   writeRows idx (p.2.tail.take M) 0 st.y,
   writeMaskCol st.mask idx (pySliceEnd M ((p.1.length : ℤ) - 1))⟩

/-- `padding`'s sample loop, with `idx` the running `enumerate` index. -/
def padLoop (M : ℕ) : List (List (List ℕ) × List (List ℕ)) → ℕ →
    PadState → PadState
  | [], _, st => st
  | p :: rest, idx, st => padLoop M rest (idx + 1) (writeSample M idx p st)

/-- The quadruple returned by `padding`. -/
structure PadResult where
  x : T3
  y : T3
  lengths : List ℤ
  mask : T2

/-- `lengths = np.array([len(seq) for seq in seqs]) - 1`. -/
def padLengths (seqs : List (List (List ℕ))) : List ℤ :=
  seqs.map fun s => (s.length : ℤ) - 1

/-- `maxlen = np.max(lengths)`, as the (clamped) tensor dimension. -/
def padM (seqs : List (List (List ℕ))) : ℕ :=
  (listMaxI (padLengths seqs)).toNat

/-- `padding(seqs, labels, vocab, n_classes)`:
`lengths = np.array([len(seq) for seq in seqs]) - 1`,
`maxlen = np.max(lengths)`, zero tensors
`x : [maxlen, n_samples, vocab]`, `y : [maxlen, n_samples, n_classes]`,
`mask : [maxlen, n_samples]`, then the per-sample write loop. -/
def padding (seqs labels : List (List (List ℕ))) (vocab n_classes : ℕ) :
    PadResult :=
  let st := padLoop (padM seqs) (seqs.zip labels) 0
    ⟨fun _ _ _ => 0, fun _ _ _ => 0, fun _ _ => 0⟩
  ⟨⟨padM seqs, seqs.length, vocab, st.x⟩,
   ⟨padM seqs, seqs.length, n_classes, st.y⟩,
   padLengths seqs,
   ⟨padM seqs, seqs.length, st.mask⟩⟩

/-- Multi-hot encoding of one visit over the code vocabulary (the spec's
"multi-hot vector ... 1 at each code index present in that visit"). -/
def multiHot (visit : List ℕ) (c : ℕ) : ℝ := if c ∈ visit then 1 else 0

/-- The `build_EHRNN` module: hyperparameters plus the current values
of its four registered parameters.  `__init__` wraps exactly `W_emb`,
`b_emb`, `W_out` and `b_out` in `nn.Parameter`; the GRU cells are not
attributes of the module — `forward` constructs them afresh on every
call, so their weights enter `forward` below as the per-call
`RandSource` draws, not as fields of this structure. -/
structure BuildEHRNN where
  inputDimSize : ℕ
  hiddenDimSize : ℕ
  numClass : ℕ
  embSize : ℕ
  batchSize : ℕ
  logEps : ℝ
  wEmbEnt : ℕ → ℕ → ℝ
  bEmbEnt : ℕ → ℝ
  wOutEnt : ℕ → ℕ → ℝ
  bOutEnt : ℕ → ℝ

namespace BuildEHRNN

/-- `self.W_emb = nn.Parameter(torch.randn(inputDimSize, embSize))`. -/
def W_emb (m : BuildEHRNN) : T2 := ⟨m.inputDimSize, m.embSize, m.wEmbEnt⟩

/-- `self.b_emb = nn.Parameter(torch.zeros(embSize))`. -/
def b_emb (m : BuildEHRNN) : T1 := ⟨m.embSize, m.bEmbEnt⟩

/-- `self.W_out = nn.Parameter(torch.randn(hiddenDimSize, numClass))`. -/
def W_out (m : BuildEHRNN) : T2 := ⟨m.hiddenDimSize, m.numClass, m.wOutEnt⟩

/-- `self.b_out = nn.Parameter(torch.zeros(numClass))`. -/
def b_out (m : BuildEHRNN) : T1 := ⟨m.numClass, m.bOutEnt⟩

/-- `build_EHRNN.init_hidden`:
`torch.zeros(batchSize, hiddenDimSize)`. -/
def init_hidden (m : BuildEHRNN) : T2 :=
  ⟨m.batchSize, m.hiddenDimSize, fun _ _ => 0⟩

/-- `self.emb = torch.tanh(torch.matmul(x, W_emb) + b_emb)`. -/
noncomputable def emb (m : BuildEHRNN) (x : T3) : T3 :=
  map3 Real.tanh (addBias3 (matmul32 x m.W_emb) m.b_emb)

/-- The hidden state after `t` iterations of the inner loop
`for i, seq in enumerate(input_values): h = rnn(seq, h)`, starting from
`h = self.init_hidden()` (re-assigned at the top of each layer). -/
noncomputable def layerH (m : BuildEHRNN) (cell : EHRNN) (input : T3) :
    ℕ → T2
  | 0 => m.init_hidden
  | t + 1 => cell.forward (slice3 input t) (m.layerH cell input t)

/-- `torch.stack(hidden_state)` for one layer: the `[time, batch,
hidden]` tensor whose row `t` is the hidden state after `t + 1`
steps. -/
noncomputable def layerRun (m : BuildEHRNN) (cell : EHRNN) (input : T3) :
    T3 :=
  ⟨input.d0, input.d1, cell.hiddenDimSize,
   fun t i j => (m.layerH cell input (t + 1)).ent i j⟩

/-- Layer 1 of the loop body: a fresh
`EHRNN(inputDimSize, hiddenDimSize, embSize, batchSize, numClass)` with
the first per-call `torch.randn` draw, run over the embedded input,
then `self.dropout` (whose realised multiplier is `drop1`). -/
noncomputable def hidden1 (m : BuildEHRNN) (r1 : RandSource)
    (drop1 : ℕ → ℕ → ℕ → ℝ) (x : T3) : T3 :=
  mulEnt3 drop1 (m.layerRun
    (mkEHRNN m.inputDimSize m.hiddenDimSize m.embSize m.batchSize
      m.numClass r1)
    (m.emb x))

/-- Layer 2, consuming layer 1's (dropped-out) hidden sequence. -/
noncomputable def hidden2 (m : BuildEHRNN) (r1 r2 : RandSource)
    (drop1 drop2 : ℕ → ℕ → ℕ → ℝ) (x : T3) : T3 :=
  mulEnt3 drop2 (m.layerRun
    (mkEHRNN m.inputDimSize m.hiddenDimSize m.embSize m.batchSize
      m.numClass r2)
    (m.hidden1 r1 drop1 x))

/-- `y_linear = torch.matmul(hidden_state, W_out) + b_out`. -/
noncomputable def yLinear (m : BuildEHRNN) (r1 r2 : RandSource)
    (drop1 drop2 : ℕ → ℕ → ℕ → ℝ) (x : T3) : T3 :=
  addBias3 (matmul32 (m.hidden2 r1 r2 drop1 drop2 x) m.W_out) m.b_out

/-- `yhat = F.softmax(y_linear, dim=1)` — the pre-mask probabilities. -/
noncomputable def yhatSoftmax (m : BuildEHRNN) (r1 r2 : RandSource)
    (drop1 drop2 : ℕ → ℕ → ℕ → ℝ) (x : T3) : T3 :=
  softmaxDim1 (m.yLinear r1 r2 drop1 drop2 x)

/-- `yhat = yhat * mask[:, :, None]`. -/
noncomputable def yhatMasked (m : BuildEHRNN) (r1 r2 : RandSource)
    (drop1 drop2 : ℕ → ℕ → ℕ → ℝ) (x : T3) (mask : T2) : T3 :=
  maskMul (m.yhatSoftmax r1 r2 drop1 drop2 x) mask

/-- `cross_entropy = -(y * log(yhat + logEps)
+ (1 - y) * log(1 - yhat + logEps))` (elementwise; `yhat` here is the
masked tensor, which the code reassigned before this line). -/
noncomputable def crossEntropy (m : BuildEHRNN) (r1 r2 : RandSource)
    (drop1 drop2 : ℕ → ℕ → ℕ → ℝ) (x y : T3) (mask : T2) : T3 :=
  ⟨y.d0, y.d1, y.d2, fun t i j =>
    -(y.ent t i j *
        Real.log ((m.yhatMasked r1 r2 drop1 drop2 x mask).ent t i j
          + m.logEps)
      + (1 - y.ent t i j) *
        Real.log (1 - (m.yhatMasked r1 r2 drop1 drop2 x mask).ent t i j
          + m.logEps))⟩

/-- `last_step = -torch.mean(y[-1] * log(yhat[-1] + logEps)
+ (1 - y[-1]) * log(1 - yhat[-1] + logEps))` — computed by the code and
then never used. -/
noncomputable def lastStep (m : BuildEHRNN) (r1 r2 : RandSource)
    (drop1 drop2 : ℕ → ℕ → ℕ → ℝ) (x y : T3) (mask : T2) : ℝ :=
  -(meanT2 ⟨y.d1, y.d2, fun i j =>
    y.ent (y.d0 - 1) i j *
        Real.log ((m.yhatMasked r1 r2 drop1 drop2 x mask).ent (y.d0 - 1) i j
          + m.logEps)
      + (1 - y.ent (y.d0 - 1) i j) *
        Real.log
          (1 - (m.yhatMasked r1 r2 drop1 drop2 x mask).ent (y.d0 - 1) i j
            + m.logEps)⟩)

/-- `prediction_loss = torch.sum(torch.sum(cross_entropy, dim=0), dim=1)
/ torch.cuda.FloatTensor(lengths)`. -/
noncomputable def predictionLoss (m : BuildEHRNN) (r1 r2 : RandSource)
    (drop1 drop2 : ℕ → ℕ → ℕ → ℝ) (x y : T3) (mask : T2)
    (lengths : List ℤ) : T1 :=
  divLengths (sumDim1 (sumDim0 (m.crossEntropy r1 r2 drop1 drop2 x y mask)))
    lengths

/-- `cost = torch.mean(prediction_loss)
+ 0.000001 * (W_out ** 2).sum()`. -/
noncomputable def cost (m : BuildEHRNN) (r1 r2 : RandSource)
    (drop1 drop2 : ℕ → ℕ → ℕ → ℝ) (x y : T3) (mask : T2)
    (lengths : List ℤ) : ℝ :=
  meanT1 (m.predictionLoss r1 r2 drop1 drop2 x y mask lengths)
    + 0.000001 * sumSq2 m.W_out

/-- `build_EHRNN.forward(self, x, y, h, lengths, mask)`: returns
`(yhat, hidden_state, cost)`.  The `h` argument is re-assigned
(`h = self.init_hidden()`) before any read, so it is unused.  `r1`,
`r2` are the two per-call `torch.randn` draws for the two freshly
constructed `EHRNN` cells, and `drop1`, `drop2` the realised dropout
multipliers. -/
noncomputable def forward (m : BuildEHRNN) (r1 r2 : RandSource)
    (drop1 drop2 : ℕ → ℕ → ℕ → ℝ) (x y : T3) (h : T2)
    (lengths : List ℤ) (mask : T2) : T3 × T3 × ℝ :=
  (m.yhatMasked r1 r2 drop1 drop2 x mask,
   m.hidden2 r1 r2 drop1 drop2 x,
   m.cost r1 r2 drop1 drop2 x y mask lengths)

end BuildEHRNN

/-- A `RandSource` of all-zero draws. -/
def zeroRS : RandSource :=
  ⟨fun _ _ => 0, fun _ _ => 0, fun _ _ => 0,
   fun _ _ => 0, fun _ _ => 0, fun _ _ => 0⟩

/-- A `RandSource` whose candidate weight matrix `W_h` is all ones and
whose other draws are zero. -/
def whOneRS : RandSource :=
  ⟨fun _ _ => 0, fun _ _ => 0, fun _ _ => 1,
   fun _ _ => 0, fun _ _ => 0, fun _ _ => 0⟩

/-- A realised training-mode dropout multiplier with `p = 0.5` that
kept every unit: each kept entry is scaled by `1 / (1 - p) = 2`. -/
def dropTwo : ℕ → ℕ → ℕ → ℝ := fun _ _ _ => 2

/-- An all-zero rank-3 tensor of the given dimensions. -/
def zeroT3 (a b c : ℕ) : T3 := ⟨a, b, c, fun _ _ _ => 0⟩

/-- An all-zero rank-2 tensor of the given dimensions. -/
def zeroT2 (a b : ℕ) : T2 := ⟨a, b, fun _ _ => 0⟩

/-- A `build_EHRNN` whose four registered parameters are all zero, with
the given hyperparameters. -/
def zeroBuild (inputDim hiddenDim numClass embSize batch : ℕ) (eps : ℝ) :
    BuildEHRNN :=
  ⟨inputDim, hiddenDim, numClass, embSize, batch, eps,
   fun _ _ => 0, fun _ => 0, fun _ _ => 0, fun _ => 0⟩

/-- A `build_EHRNN` with all dimensions `1`, `b_emb = 1` and the other
registered parameters zero (so the embedded input is `tanh 1 ≠ 0` and a
signal reaches the GRU cells). -/
def oneBEmbBuild : BuildEHRNN :=
  ⟨1, 1, 1, 1, 1, 1e-8,
   fun _ _ => 0, fun _ => 1, fun _ _ => 0, fun _ => 0⟩

lemma le_foldl_max_init : ∀ (l : List ℤ) (b : ℤ), b ≤ l.foldl max b
  | [], _ => le_refl _
  | a :: t, b => le_trans (le_max_left b a) (le_foldl_max_init t (max b a))

lemma le_foldl_max_of_mem : ∀ (l : List ℤ) (b a : ℤ), a ∈ l → a ≤ l.foldl max b
  | a' :: t, b, a, h => by
    rcases List.mem_cons.mp h with rfl | h'
    · exact le_trans (le_max_right b a) (le_foldl_max_init t _)
    · exact le_foldl_max_of_mem t _ a h'

lemma le_listMaxI_of_mem (l : List ℤ) (a : ℤ) (h : a ∈ l) : a ≤ listMaxI l := by
  cases l with
  | nil => simp at h
  | cons a' t =>
    rcases List.mem_cons.mp h with rfl | h'
    · exact le_foldl_max_init t a
    · exact le_foldl_max_of_mem t a' a h'

lemma ite_ite_or {p q : Prop} [Decidable p] [Decidable q] {x y : ℝ} :
    (if p then x else if q then x else y) = if p ∨ q then x else y := by
  by_cases h1 : p <;> by_cases h2 : q <;> simp [h1, h2]

lemma writeRows_ent (idx : ℕ) :
    ∀ (vs : List (List ℕ)) (t0 : ℕ) (g : ℕ → ℕ → ℕ → ℝ) (t i c : ℕ),
    writeRows idx vs t0 g t i c =
      if t0 ≤ t ∧ t - t0 < vs.length ∧ i = idx ∧ c ∈ vs.getD (t - t0) []
      then 1 else g t i c
  | [], t0, g, t, i, c => by simp [writeRows]
  | v :: rest, t0, g, t, i, c => by
    rw [writeRows, writeRows_ent idx rest (t0 + 1) _ t i c]
    have hw : writeRow g t0 idx v t i c =
        if t = t0 ∧ i = idx ∧ c ∈ v then 1 else g t i c := rfl
    rw [hw, ite_ite_or]
    refine if_congr ?_ rfl rfl
    constructor
    · rintro (⟨ha1, ha2, ha3, ha4⟩ | ⟨hc1, hc2, hc3⟩)
      · have h4 : t - t0 = (t - (t0 + 1)) + 1 := by omega
        refine ⟨by omega, by simp only [List.length_cons]; omega, ha3, ?_⟩
        rw [h4, List.getD_cons_succ]
        exact ha4
      · have h0 : t - t0 = 0 := by omega
        refine ⟨by omega, by simp only [List.length_cons]; omega, hc2, ?_⟩
        rw [h0, List.getD_cons_zero]
        exact hc3
    · rintro ⟨hb1, hb2, hb3, hb4⟩
      by_cases ht : t = t0
      · have h0 : t - t0 = 0 := by omega
        rw [h0, List.getD_cons_zero] at hb4
        exact Or.inr ⟨ht, hb3, hb4⟩
      · have h4 : t - t0 = (t - (t0 + 1)) + 1 := by omega
        rw [h4, List.getD_cons_succ] at hb4
        exact Or.inl ⟨by omega, by simp at hb2; omega, hb3, hb4⟩

lemma padLoop_mask (M : ℕ) :
    ∀ (ps : List (List (List ℕ) × List (List ℕ))) (idx : ℕ) (st : PadState)
      (t i : ℕ),
    (padLoop M ps idx st).mask t i =
      if idx ≤ i ∧ i - idx < ps.length ∧
          t < pySliceEnd M (((ps.getD (i - idx) ([], [])).1.length : ℤ) - 1)
      then 1 else st.mask t i
  | [], idx, st, t, i => by simp [padLoop]
  | p :: rest, idx, st, t, i => by
    rw [padLoop, padLoop_mask M rest (idx + 1) _ t i]
    have hw : (writeSample M idx p st).mask t i =
        if i = idx ∧ t < pySliceEnd M ((p.1.length : ℤ) - 1) then 1
        else st.mask t i := rfl
    rw [hw, ite_ite_or]
    refine if_congr ?_ rfl rfl
    constructor
    · rintro (⟨ha1, ha2, ha3⟩ | ⟨hc1, hc2⟩)
      · have h4 : i - idx = (i - (idx + 1)) + 1 := by omega
        refine ⟨by omega, by simp only [List.length_cons]; omega, ?_⟩
        rw [h4, List.getD_cons_succ]
        exact ha3
      · have h0 : i - idx = 0 := by omega
        refine ⟨by omega, by simp only [List.length_cons]; omega, ?_⟩
        rw [h0, List.getD_cons_zero]
        exact hc2
    · rintro ⟨hb1, hb2, hb3⟩
      by_cases hi : i = idx
      · have h0 : i - idx = 0 := by omega
        rw [h0, List.getD_cons_zero] at hb3
        exact Or.inr ⟨hi, hb3⟩
      · have h4 : i - idx = (i - (idx + 1)) + 1 := by omega
        rw [h4, List.getD_cons_succ] at hb3
        exact Or.inl ⟨by omega, by simp at hb2; omega, hb3⟩

lemma padLoop_x (M : ℕ) :
    ∀ (ps : List (List (List ℕ) × List (List ℕ))) (idx : ℕ) (st : PadState)
      (t i c : ℕ),
    (padLoop M ps idx st).x t i c =
      if idx ≤ i ∧ i - idx < ps.length ∧
          t < ((ps.getD (i - idx) ([], [])).1.dropLast.take M).length ∧
          c ∈ ((ps.getD (i - idx) ([], [])).1.dropLast.take M).getD t []
      then 1 else st.x t i c
  | [], idx, st, t, i, c => by simp [padLoop]
  | p :: rest, idx, st, t, i, c => by
    rw [padLoop, padLoop_x M rest (idx + 1) _ t i c]
    have hw : (writeSample M idx p st).x t i c =
        if i = idx ∧ t < (p.1.dropLast.take M).length ∧
            c ∈ (p.1.dropLast.take M).getD t [] then 1
        else st.x t i c := by
      have hx : (writeSample M idx p st).x t i c =
          writeRows idx (p.1.dropLast.take M) 0 st.x t i c := rfl
      rw [hx, writeRows_ent idx (p.1.dropLast.take M) 0 st.x t i c]
      simp only [Nat.sub_zero, Nat.zero_le, true_and]
      refine if_congr ?_ rfl rfl
      tauto
    rw [hw, ite_ite_or]
    refine if_congr ?_ rfl rfl
    constructor
    · rintro (⟨ha1, ha2, ha3, ha4⟩ | ⟨hc1, hc2, hc3⟩)
      · have h4 : i - idx = (i - (idx + 1)) + 1 := by omega
        refine ⟨by omega, by simp only [List.length_cons]; omega, ?_, ?_⟩
        · rw [h4, List.getD_cons_succ]
          exact ha3
        · rw [h4, List.getD_cons_succ]
          exact ha4
      · have h0 : i - idx = 0 := by omega
        refine ⟨by omega, by simp only [List.length_cons]; omega, ?_, ?_⟩
        · rw [h0, List.getD_cons_zero]
          exact hc2
        · rw [h0, List.getD_cons_zero]
          exact hc3
    · rintro ⟨hb1, hb2, hb3, hb4⟩
      by_cases hi : i = idx
      · have h0 : i - idx = 0 := by omega
        rw [h0, List.getD_cons_zero] at hb3 hb4
        exact Or.inr ⟨hi, hb3, hb4⟩
      · have h4 : i - idx = (i - (idx + 1)) + 1 := by omega
        rw [h4, List.getD_cons_succ] at hb3 hb4
        exact Or.inl ⟨by omega, by simp at hb2; omega, hb3, hb4⟩

lemma padLoop_y (M : ℕ) :
    ∀ (ps : List (List (List ℕ) × List (List ℕ))) (idx : ℕ) (st : PadState)
      (t i c : ℕ),
    (padLoop M ps idx st).y t i c =
      if idx ≤ i ∧ i - idx < ps.length ∧
          t < ((ps.getD (i - idx) ([], [])).2.tail.take M).length ∧
          c ∈ ((ps.getD (i - idx) ([], [])).2.tail.take M).getD t []
      then 1 else st.y t i c
  | [], idx, st, t, i, c => by simp [padLoop]
  | p :: rest, idx, st, t, i, c => by
    rw [padLoop, padLoop_y M rest (idx + 1) _ t i c]
    have hw : (writeSample M idx p st).y t i c =
        if i = idx ∧ t < (p.2.tail.take M).length ∧
            c ∈ (p.2.tail.take M).getD t [] then 1
        else st.y t i c := by
      have hy : (writeSample M idx p st).y t i c =
          writeRows idx (p.2.tail.take M) 0 st.y t i c := rfl
      rw [hy, writeRows_ent idx (p.2.tail.take M) 0 st.y t i c]
      simp only [Nat.sub_zero, Nat.zero_le, true_and]
      refine if_congr ?_ rfl rfl
      tauto
    rw [hw, ite_ite_or]
    refine if_congr ?_ rfl rfl
    constructor
    · rintro (⟨ha1, ha2, ha3, ha4⟩ | ⟨hc1, hc2, hc3⟩)
      · have h4 : i - idx = (i - (idx + 1)) + 1 := by omega
        refine ⟨by omega, by simp only [List.length_cons]; omega, ?_, ?_⟩
        · rw [h4, List.getD_cons_succ]
          exact ha3
        · rw [h4, List.getD_cons_succ]
          exact ha4
      · have h0 : i - idx = 0 := by omega
        refine ⟨by omega, by simp only [List.length_cons]; omega, ?_, ?_⟩
        · rw [h0, List.getD_cons_zero]
          exact hc2
        · rw [h0, List.getD_cons_zero]
          exact hc3
    · rintro ⟨hb1, hb2, hb3, hb4⟩
      by_cases hi : i = idx
      · have h0 : i - idx = 0 := by omega
        rw [h0, List.getD_cons_zero] at hb3 hb4
        exact Or.inr ⟨hi, hb3, hb4⟩
      · have h4 : i - idx = (i - (idx + 1)) + 1 := by omega
        rw [h4, List.getD_cons_succ] at hb3 hb4
        exact Or.inl ⟨by omega, by simp at hb2; omega, hb3, hb4⟩

lemma zip_getD (seqs labels : List (List (List ℕ)))
    (hlen : labels.length = seqs.length) (i : ℕ) (hi : i < seqs.length) :
    (seqs.zip labels).getD i ([], []) = (seqs.getD i [], labels.getD i []) := by
  have h1 : i < (seqs.zip labels).length := by
    rw [List.length_zip seqs labels, hlen]
    simpa using hi
  have h2 : i < labels.length := by omega
  rw [List.getD_eq_getElem _ _ h1, List.getD_eq_getElem _ _ hi,
    List.getD_eq_getElem _ _ h2]
  exact List.getElem_zip

lemma zip_length_eq (seqs labels : List (List (List ℕ)))
    (hlen : labels.length = seqs.length) :
    (seqs.zip labels).length = seqs.length := by
  rw [List.length_zip seqs labels, hlen]
  simp

lemma padM_ge (seqs : List (List (List ℕ))) (i : ℕ) (hi : i < seqs.length) :
    (seqs.getD i []).length - 1 ≤ padM seqs := by
  have hm : ((seqs.getD i []).length : ℤ) - 1 ∈ padLengths seqs := by
    unfold padLengths
    refine List.mem_map.mpr ⟨seqs.getD i [], ?_, rfl⟩
    rw [List.getD_eq_getElem _ _ hi]
    exact List.getElem_mem hi
  have h2 := le_listMaxI_of_mem _ _ hm
  unfold padM
  omega

lemma padding_mask_ent (seqs labels : List (List (List ℕ)))
    (vocab n_classes : ℕ) (hlen : labels.length = seqs.length)
    (t i : ℕ) (hi : i < seqs.length) :
    (padding seqs labels vocab n_classes).mask.ent t i =
      if t < pySliceEnd (padM seqs) (((seqs.getD i []).length : ℤ) - 1)
      then 1 else 0 := by
  simp only [padding]
  rw [padLoop_mask]
  simp only [Nat.sub_zero, Nat.zero_le, true_and,
    zip_getD seqs labels hlen i hi, zip_length_eq seqs labels hlen, hi]

lemma padding_x_ent (seqs labels : List (List (List ℕ)))
    (vocab n_classes : ℕ) (hlen : labels.length = seqs.length)
    (t i c : ℕ) (hi : i < seqs.length) :
    (padding seqs labels vocab n_classes).x.ent t i c =
      if t + 1 < (seqs.getD i []).length ∧ c ∈ (seqs.getD i []).getD t []
      then 1 else 0 := by
  simp only [padding]
  rw [padLoop_x]
  simp only [Nat.sub_zero, Nat.zero_le, true_and,
    zip_getD seqs labels hlen i hi, zip_length_eq seqs labels hlen, hi]
  have hM := padM_ge seqs i hi
  have hL : ((seqs.getD i []).dropLast.take (padM seqs)).length
      = (seqs.getD i []).length - 1 := by
    rw [List.length_take, List.length_dropLast]
    omega
  refine if_congr ?_ rfl rfl
  constructor
  · rintro ⟨ht, hc⟩
    rw [hL] at ht
    have ht2 : t < (seqs.getD i []).length := by omega
    have ht3 : t < ((seqs.getD i []).dropLast.take (padM seqs)).length := by
      rw [hL]
      omega
    rw [List.getD_eq_getElem _ _ ht3, List.getElem_take,
      List.getElem_dropLast _ t] at hc
    refine ⟨by omega, ?_⟩
    rw [List.getD_eq_getElem _ _ ht2]
    exact hc
  · rintro ⟨ht, hc⟩
    have ht3 : t < ((seqs.getD i []).dropLast.take (padM seqs)).length := by
      rw [hL]
      omega
    have ht2 : t < (seqs.getD i []).length := by omega
    refine ⟨ht3, ?_⟩
    rw [List.getD_eq_getElem _ _ ht3, List.getElem_take,
      List.getElem_dropLast _ t]
    rw [List.getD_eq_getElem _ _ ht2] at hc
    exact hc

lemma padding_y_ent (seqs labels : List (List (List ℕ)))
    (vocab n_classes : ℕ) (hlen : labels.length = seqs.length)
    (t i c : ℕ) (hi : i < seqs.length) :
    (padding seqs labels vocab n_classes).y.ent t i c =
      if (t < padM seqs ∧ t + 1 < (labels.getD i []).length) ∧
          c ∈ (labels.getD i []).getD (t + 1) []
      then 1 else 0 := by
  simp only [padding]
  rw [padLoop_y]
  simp only [Nat.sub_zero, Nat.zero_le, true_and,
    zip_getD seqs labels hlen i hi, zip_length_eq seqs labels hlen, hi]
  have hL : ((labels.getD i []).tail.take (padM seqs)).length
      = min (padM seqs) ((labels.getD i []).length - 1) := by
    rw [List.length_take, List.length_tail]
  refine if_congr ?_ rfl rfl
  constructor
  · rintro ⟨ht, hc⟩
    have ht1 := ht
    rw [hL] at ht1
    have ht2 : t + 1 < (labels.getD i []).length := by omega
    rw [List.getD_eq_getElem _ _ ht, List.getElem_take,
      List.getElem_tail] at hc
    refine ⟨⟨by omega, ht2⟩, ?_⟩
    rw [List.getD_eq_getElem _ _ ht2]
    exact hc
  · rintro ⟨⟨htM, htL⟩, hc⟩
    have ht3 : t < ((labels.getD i []).tail.take (padM seqs)).length := by
      rw [hL]
      omega
    refine ⟨ht3, ?_⟩
    rw [List.getD_eq_getElem _ _ ht3, List.getElem_take, List.getElem_tail]
    rw [List.getD_eq_getElem _ _ htL] at hc
    exact hc

end DrAI

namespace DrAI

/-- C7: `EHRNN.forward` computes exactly the standard GRU recurrence:
with z = sigmoid(emb·W_z + h·U_z + b_z), r = sigmoid(emb·W_r + h·U_r + b_r)
and h̃ = tanh(emb·W_h + (r⊙h)·U_h + b_h), the returned hidden state has
entries z⊙h + (1−z)⊙h̃ (matrix products written as explicit sums over
the embedding respectively hidden dimension). -/
theorem C7_gru_recurrence (c : EHRNN) (emb h : T2) (i j : ℕ) :
    (c.forward emb h).ent i j =
      (sigmoid ((∑ k in Finset.range emb.d1, emb.ent i k * c.wzEnt k j)
          + (∑ k in Finset.range h.d1, h.ent i k * c.uzEnt k j) + c.bzEnt j))
        * h.ent i j
      + (1 - sigmoid ((∑ k in Finset.range emb.d1, emb.ent i k * c.wzEnt k j)
          + (∑ k in Finset.range h.d1, h.ent i k * c.uzEnt k j) + c.bzEnt j))
        * Real.tanh ((∑ k in Finset.range emb.d1, emb.ent i k * c.whEnt k j)
          + (∑ k in Finset.range c.hiddenDimSize,
              (sigmoid ((∑ m in Finset.range emb.d1, emb.ent i m * c.wrEnt m k)
                + (∑ m in Finset.range h.d1, h.ent i m * c.urEnt m k) + c.brEnt k))
                * h.ent i k * c.uhEnt k j)
          + c.bhEnt j) := by
  simp [EHRNN.forward, add2, mul2, oneSub2, map2, addBias2, matmul2,
    EHRNN.W_z, EHRNN.W_r, EHRNN.W_h, EHRNN.U_z, EHRNN.U_r, EHRNN.U_h,
    EHRNN.b_z, EHRNN.b_r, EHRNN.b_h, mul_assoc]

/-- C5 counterexample: for the batch `[[], [[0],[0],[0]]]` — whose first
patient has zero visits — `lengths[0] = -1`, and the Python slice
`mask[:-1, 0] = 1.` sets `mask[0, 0]` to `1`, although the claim
(`mask[t, i] = 1` exactly for `t < len(seqs[i]) - 1`) demands `0` there
since no `t` satisfies `t < -1`. -/
theorem C5_counterexample :
    (padding [[], [[0], [0], [0]]] [[], [[0], [0], [0]]] 1 1).mask.ent 0 0 = 1 ∧
      ¬ ((0 : ℤ) < (([] : List (List ℕ)).length : ℤ) - 1) := by
  constructor
  · rw [padding_mask_ent _ _ _ _ rfl 0 0 (by norm_num)]
    norm_num [padM, padLengths, listMaxI, pySliceEnd]
  · norm_num

/-- C5 (amended): for every batch with as many labels as sequences in
which every sequence has at least one visit, and every sample `i`, the
mask entry `mask[t, i]` equals `1` exactly for `t < len(seqs[i]) - 1`
and `0` otherwise, and the number of mask positions set to `1` for
sample `i` (the sum of the 0/1 column) equals `len(seqs[i]) - 1`. -/
theorem C5_mask_theorem (seqs labels : List (List (List ℕ)))
    (vocab n_classes : ℕ) (hlen : labels.length = seqs.length)
    (i : ℕ) (hi : i < seqs.length) (hne : ∀ s ∈ seqs, s ≠ []) :
    (∀ t, (padding seqs labels vocab n_classes).mask.ent t i =
        if t + 1 < (seqs.getD i []).length then 1 else 0) ∧
      ∑ t in Finset.range (padding seqs labels vocab n_classes).mask.d0,
          (padding seqs labels vocab n_classes).mask.ent t i
        = ((seqs.getD i []).length : ℝ) - 1 := by
  have hsne : seqs.getD i [] ≠ [] := by
    apply hne
    rw [List.getD_eq_getElem _ _ hi]
    exact List.getElem_mem hi
  have h1 : 0 < (seqs.getD i []).length := List.length_pos.mpr hsne
  have hM := padM_ge seqs i hi
  have hps : pySliceEnd (padM seqs) (((seqs.getD i []).length : ℤ) - 1)
      = (seqs.getD i []).length - 1 := by
    unfold pySliceEnd
    rw [if_pos (by omega : (0:ℤ) ≤ ((seqs.getD i []).length : ℤ) - 1)]
    omega
  have hent : ∀ t, (padding seqs labels vocab n_classes).mask.ent t i =
      if t + 1 < (seqs.getD i []).length then 1 else 0 := by
    intro t
    rw [padding_mask_ent seqs labels vocab n_classes hlen t i hi, hps]
    refine if_congr ?_ rfl rfl
    omega
  refine ⟨hent, ?_⟩
  have hd0 : (padding seqs labels vocab n_classes).mask.d0 = padM seqs := rfl
  rw [hd0]
  rw [Finset.sum_congr rfl (fun t _ => hent t)]
  rw [Finset.sum_boole]
  have hfil : (Finset.range (padM seqs)).filter
      (fun t => t + 1 < (seqs.getD i []).length)
      = Finset.range ((seqs.getD i []).length - 1) := by
    ext a
    simp only [Finset.mem_filter, Finset.mem_range]
    omega
  rw [hfil, Finset.card_range]
  have : ((seqs.getD i []).length - 1 : ℕ) = ((seqs.getD i []).length : ℤ) - 1
      := by omega
  push_cast [Nat.cast_sub h1]
  ring

/-- C5 witness: the amended characterization evaluated on the concrete
one-sample batch `[[[0],[1]]]` (one patient with two visits). -/
theorem C5_mask_theorem_witness :
    (∀ t, (padding [[[0], [1]]] [[[0], [1]]] 3 3).mask.ent t 0 =
        if t + 1 < (([[[0], [1]]] : List (List (List ℕ))).getD 0 []).length
        then 1 else 0) ∧
      ∑ t in Finset.range (padding [[[0], [1]]] [[[0], [1]]] 3 3).mask.d0,
          (padding [[[0], [1]]] [[[0], [1]]] 3 3).mask.ent t 0
        = ((([[[0], [1]]] : List (List (List ℕ))).getD 0 []).length : ℝ) - 1 :=
  C5_mask_theorem [[[0], [1]]] [[[0], [1]]] 3 3 rfl 0 (by norm_num) (by decide)

/-- C6: `padding` realizes the teacher shift: for every batch with as
many labels as sequences and every sample `i`, `x[t, i, :]` is the
multi-hot encoding of visit `t` of `seqs[i]` when `t < len(seqs[i]) - 1`
and all-zero otherwise, and `y[t, i, :]` is the multi-hot encoding of
visit `t+1` of `labels[i]` for valid `t` (a row of the tensor with
`t + 1 < len(labels[i])`) and all-zero otherwise. -/
theorem C6_teacher_shift (seqs labels : List (List (List ℕ)))
    (vocab n_classes : ℕ) (hlen : labels.length = seqs.length)
    (i : ℕ) (hi : i < seqs.length) (t c : ℕ) :
    (padding seqs labels vocab n_classes).x.ent t i c =
        (if t + 1 < (seqs.getD i []).length
         then multiHot ((seqs.getD i []).getD t []) c else 0) ∧
      (padding seqs labels vocab n_classes).y.ent t i c =
        (if t < padM seqs ∧ t + 1 < (labels.getD i []).length
         then multiHot ((labels.getD i []).getD (t + 1) []) c else 0) := by
  constructor
  · rw [padding_x_ent seqs labels vocab n_classes hlen t i c hi]
    unfold multiHot
    by_cases h1 : t + 1 < (seqs.getD i []).length
    · rw [if_pos h1]
      by_cases h2 : c ∈ (seqs.getD i []).getD t []
      · rw [if_pos ⟨h1, h2⟩, if_pos h2]
      · rw [if_neg (by tauto), if_neg h2]
    · rw [if_neg h1, if_neg (by tauto)]
  · rw [padding_y_ent seqs labels vocab n_classes hlen t i c hi]
    unfold multiHot
    by_cases h1 : t < padM seqs ∧ t + 1 < (labels.getD i []).length
    · rw [if_pos h1]
      by_cases h2 : c ∈ (labels.getD i []).getD (t + 1) []
      · rw [if_pos ⟨h1, h2⟩, if_pos h2]
      · rw [if_neg (by tauto), if_neg h2]
    · rw [if_neg h1, if_neg (by tauto)]

/-- C6 witness: the teacher shift evaluated on the concrete batch
`[[[0],[1,2]]]` at `t = 0`, `c = 1`. -/
theorem C6_teacher_shift_witness :
    (padding [[[0], [1, 2]]] [[[0], [1, 2]]] 3 3).x.ent 0 0 1 =
        (if 0 + 1 < (([[[0], [1, 2]]] : List (List (List ℕ))).getD 0 []).length
         then multiHot ((([[[0], [1, 2]]] :
            List (List (List ℕ))).getD 0 []).getD 0 []) 1 else 0) ∧
      (padding [[[0], [1, 2]]] [[[0], [1, 2]]] 3 3).y.ent 0 0 1 =
        (if 0 < padM [[[0], [1, 2]]] ∧
            0 + 1 < (([[[0], [1, 2]]] : List (List (List ℕ))).getD 0 []).length
         then multiHot ((([[[0], [1, 2]]] :
            List (List (List ℕ))).getD 0 []).getD (0 + 1) []) 1 else 0) :=
  C6_teacher_shift [[[0], [1, 2]]] [[[0], [1, 2]]] 3 3 rfl 0 (by norm_num) 0 1

/-- C10: the per-sample normalization has no guard: for the concrete
batch `[[[0]], [[0],[1]]]` whose first patient has exactly one visit,
`lengths[0] = 0`, so the division in `prediction_loss` divides sample
0's summed cross-entropy by zero; and for a batch whose longest
sequence has one visit, `maxlen = 0` and the tensors are empty. -/
theorem C10_unguarded_division :
    (padding [[[0]], [[0], [1]]] [[[0]], [[0], [1]]] 2 2).lengths.getD 0 1 = 0 ∧
      (∀ a : T1,
        (divLengths a
          (padding [[[0]], [[0], [1]]] [[[0]], [[0], [1]]] 2 2).lengths).ent 0
          = a.ent 0 / 0) ∧
      (padding [[[0]]] [[[0]]] 2 2).x.d0 = 0 := by
  refine ⟨?_, ?_, ?_⟩
  · norm_num [padding, padLengths]
  · intro a
    have h : ((padding [[[0]], [[0], [1]]] [[[0]], [[0], [1]]] 2 2).lengths.getD
        0 0 : ℤ) = 0 := by
      norm_num [padding, padLengths]
    show a.ent 0 /
        (((padding [[[0]], [[0], [1]]] [[[0]], [[0], [1]]] 2 2).lengths.getD
          0 0 : ℤ) : ℝ) = a.ent 0 / 0
    rw [h]
    norm_num
  · norm_num [padding, padM, padLengths, listMaxI]

/-- C8: at the start of each layer's pass, the recurrent hidden state
is reinitialized to the all-zero `[batchSize, hiddenDimSize]` tensor
(`h = self.init_hidden()` before the timestep loop, and `layerH _ _ 0`
is exactly `init_hidden`); consequently `build_EHRNN.forward` returns
identical `(yhat, hidden_state, cost)` for any two values of its `h`
argument when all other inputs and random choices are equal. -/
theorem C8_hidden_state_reset (m : BuildEHRNN) (r1 r2 : RandSource)
    (drop1 drop2 : ℕ → ℕ → ℕ → ℝ) (x y : T3) (h h' : T2)
    (lengths : List ℤ) (mask : T2) :
    (m.init_hidden.d0 = m.batchSize ∧ m.init_hidden.d1 = m.hiddenDimSize ∧
      (∀ i j, m.init_hidden.ent i j = 0) ∧
      (∀ cell input, m.layerH cell input 0 = m.init_hidden)) ∧
    m.forward r1 r2 drop1 drop2 x y h lengths mask
      = m.forward r1 r2 drop1 drop2 x y h' lengths mask :=
  ⟨⟨rfl, rfl, fun _ _ => rfl, fun _ _ => rfl⟩, rfl⟩

/-- C9: on a batch padded with `n_classes = numClass`, and assuming the
number of samples equals the model's `batchSize`, the `yhat` returned
by `build_EHRNN.forward` has exactly the `[time, batch, vocab]`
dimensions of the label tensor `y` produced by `padding` (both are
`[maxlen, n_samples, numClass]`). -/
theorem C9_yhat_shape (m : BuildEHRNN) (r1 r2 : RandSource)
    (drop1 drop2 : ℕ → ℕ → ℕ → ℝ) (seqs labels : List (List (List ℕ)))
    (V : ℕ) (h : T2) (hB : seqs.length = m.batchSize) :
    (m.forward r1 r2 drop1 drop2 (padding seqs labels V m.numClass).x
        (padding seqs labels V m.numClass).y h
        (padding seqs labels V m.numClass).lengths
        (padding seqs labels V m.numClass).mask).1.d0
        = (padding seqs labels V m.numClass).y.d0 ∧
      (m.forward r1 r2 drop1 drop2 (padding seqs labels V m.numClass).x
        (padding seqs labels V m.numClass).y h
        (padding seqs labels V m.numClass).lengths
        (padding seqs labels V m.numClass).mask).1.d1
        = (padding seqs labels V m.numClass).y.d1 ∧
      (m.forward r1 r2 drop1 drop2 (padding seqs labels V m.numClass).x
        (padding seqs labels V m.numClass).y h
        (padding seqs labels V m.numClass).lengths
        (padding seqs labels V m.numClass).mask).1.d2
        = (padding seqs labels V m.numClass).y.d2 :=
  ⟨rfl, rfl, rfl⟩

/-- C9 witness: the shape equality evaluated for a concrete
one-sample batch and a model with `batchSize = 1`. -/
theorem C9_yhat_shape_witness :
    ((zeroBuild 2 1 3 1 1 1e-8).forward zeroRS zeroRS dropTwo dropTwo
        (padding [[[0], [1]]] [[[0], [1]]] 2
          (zeroBuild 2 1 3 1 1 1e-8).numClass).x
        (padding [[[0], [1]]] [[[0], [1]]] 2
          (zeroBuild 2 1 3 1 1 1e-8).numClass).y (zeroT2 1 1)
        (padding [[[0], [1]]] [[[0], [1]]] 2
          (zeroBuild 2 1 3 1 1 1e-8).numClass).lengths
        (padding [[[0], [1]]] [[[0], [1]]] 2
          (zeroBuild 2 1 3 1 1 1e-8).numClass).mask).1.d0
        = (padding [[[0], [1]]] [[[0], [1]]] 2
          (zeroBuild 2 1 3 1 1 1e-8).numClass).y.d0 ∧
      ((zeroBuild 2 1 3 1 1 1e-8).forward zeroRS zeroRS dropTwo dropTwo
        (padding [[[0], [1]]] [[[0], [1]]] 2
          (zeroBuild 2 1 3 1 1 1e-8).numClass).x
        (padding [[[0], [1]]] [[[0], [1]]] 2
          (zeroBuild 2 1 3 1 1 1e-8).numClass).y (zeroT2 1 1)
        (padding [[[0], [1]]] [[[0], [1]]] 2
          (zeroBuild 2 1 3 1 1 1e-8).numClass).lengths
        (padding [[[0], [1]]] [[[0], [1]]] 2
          (zeroBuild 2 1 3 1 1 1e-8).numClass).mask).1.d1
        = (padding [[[0], [1]]] [[[0], [1]]] 2
          (zeroBuild 2 1 3 1 1 1e-8).numClass).y.d1 ∧
      ((zeroBuild 2 1 3 1 1 1e-8).forward zeroRS zeroRS dropTwo dropTwo
        (padding [[[0], [1]]] [[[0], [1]]] 2
          (zeroBuild 2 1 3 1 1 1e-8).numClass).x
        (padding [[[0], [1]]] [[[0], [1]]] 2
          (zeroBuild 2 1 3 1 1 1e-8).numClass).y (zeroT2 1 1)
        (padding [[[0], [1]]] [[[0], [1]]] 2
          (zeroBuild 2 1 3 1 1 1e-8).numClass).lengths
        (padding [[[0], [1]]] [[[0], [1]]] 2
          (zeroBuild 2 1 3 1 1 1e-8).numClass).mask).1.d2
        = (padding [[[0], [1]]] [[[0], [1]]] 2
          (zeroBuild 2 1 3 1 1 1e-8).numClass).y.d2 :=
  C9_yhat_shape (zeroBuild 2 1 3 1 1 1e-8) zeroRS zeroRS dropTwo dropTwo
    [[[0], [1]]] [[[0], [1]]] 2 (zeroT2 1 1) rfl

/-- C4: the cost returned by `build_EHRNN.forward` equals the batch
mean over samples of (the cross-entropy term summed over all timesteps
and all codes, divided by that sample's `lengths` entry), plus
`0.000001` times the sum of squares of `W_out`; in particular the
returned cost is this closed formula, which does not involve the
separately computed `last_step` value. -/
theorem C4_cost_formula (m : BuildEHRNN) (r1 r2 : RandSource)
    (drop1 drop2 : ℕ → ℕ → ℕ → ℝ) (x y : T3) (h : T2)
    (lengths : List ℤ) (mask : T2) :
    (m.forward r1 r2 drop1 drop2 x y h lengths mask).2.2 =
      (∑ i in Finset.range y.d1,
          (∑ t in Finset.range y.d0, ∑ c in Finset.range y.d2,
            -(y.ent t i c *
                Real.log ((m.yhatMasked r1 r2 drop1 drop2 x mask).ent t i c
                  + m.logEps)
              + (1 - y.ent t i c) *
                Real.log
                  (1 - (m.yhatMasked r1 r2 drop1 drop2 x mask).ent t i c
                    + m.logEps)))
            / ((lengths.getD i 0 : ℤ) : ℝ)) / (y.d1 : ℝ)
        + 0.000001 *
          ∑ a in Finset.range m.hiddenDimSize,
            ∑ b in Finset.range m.numClass, m.wOutEnt a b ^ 2 := by
  show m.cost r1 r2 drop1 drop2 x y mask lengths = _
  unfold BuildEHRNN.cost BuildEHRNN.predictionLoss meanT1 divLengths
  unfold sumDim1 sumDim0 BuildEHRNN.crossEntropy sumSq2 BuildEHRNN.W_out
  simp only
  congr 1
  refine congrArg (· / (y.d1 : ℝ)) ?_
  refine Finset.sum_congr rfl fun i _ => ?_
  refine congrArg (· / ((lengths.getD i 0 : ℤ) : ℝ)) ?_
  exact Finset.sum_comm

lemma sigmoid_zero : sigmoid 0 = 1 / 2 := by
  unfold sigmoid
  rw [neg_zero, Real.exp_zero]
  norm_num

lemma tanh_pos_of_pos {x : ℝ} (hx : 0 < x) : 0 < Real.tanh x := by
  rw [Real.tanh_eq_sinh_div_cosh]
  exact div_pos (Real.sinh_pos_iff.mpr hx) (Real.cosh_pos x)

lemma yLinear_zero_out (m : BuildEHRNN) (hW : ∀ a b, m.wOutEnt a b = 0)
    (hb : ∀ c, m.bOutEnt c = 0) (r1 r2 : RandSource)
    (drop1 drop2 : ℕ → ℕ → ℕ → ℝ) (x : T3) (t i c : ℕ) :
    (m.yLinear r1 r2 drop1 drop2 x).ent t i c = 0 := by
  unfold BuildEHRNN.yLinear addBias3 matmul32 BuildEHRNN.W_out
  unfold BuildEHRNN.b_out
  simp [hW, hb]

/-- C2: the code's `F.softmax(y_linear, dim=1)` normalizes over the
batch dimension (dimension 1 of the `[time, batch, vocab]` tensor), not
over the vocabulary dimension: for the zero-parameter model with
`batchSize = 2`, `numClass = 3` and a one-timestep zero input, every
pre-mask probability is `1/2`, so the entries of `yhat[0, 0, :]` sum to
`3/2 ≠ 1`, while the batch slice `yhat[0, :, 0]` sums to `1`. -/
theorem C2_softmax_over_batch_dim :
    (∑ c in Finset.range 3,
        ((zeroBuild 1 1 3 1 2 1e-8).yhatSoftmax zeroRS zeroRS dropTwo
          dropTwo (zeroT3 1 2 1)).ent 0 0 c) = 3 / 2 ∧
      (∑ b in Finset.range 2,
        ((zeroBuild 1 1 3 1 2 1e-8).yhatSoftmax zeroRS zeroRS dropTwo
          dropTwo (zeroT3 1 2 1)).ent 0 b 0) = 1 ∧
      (3 / 2 : ℝ) ≠ 1 := by
  have hyl : ∀ t i c,
      ((zeroBuild 1 1 3 1 2 1e-8).yLinear zeroRS zeroRS dropTwo dropTwo
        (zeroT3 1 2 1)).ent t i c = 0 :=
    yLinear_zero_out _ (fun _ _ => rfl) (fun _ => rfl) _ _ _ _ _
  have hd1 : ((zeroBuild 1 1 3 1 2 1e-8).yLinear zeroRS zeroRS dropTwo
      dropTwo (zeroT3 1 2 1)).d1 = 2 := rfl
  have hent : ∀ i c,
      ((zeroBuild 1 1 3 1 2 1e-8).yhatSoftmax zeroRS zeroRS dropTwo
        dropTwo (zeroT3 1 2 1)).ent 0 i c = 1 / 2 := by
    intro i c
    show Real.exp (((zeroBuild 1 1 3 1 2 1e-8).yLinear zeroRS zeroRS
        dropTwo dropTwo (zeroT3 1 2 1)).ent 0 i c) /
      ∑ b in Finset.range ((zeroBuild 1 1 3 1 2 1e-8).yLinear zeroRS zeroRS
        dropTwo dropTwo (zeroT3 1 2 1)).d1,
        Real.exp (((zeroBuild 1 1 3 1 2 1e-8).yLinear zeroRS zeroRS
          dropTwo dropTwo (zeroT3 1 2 1)).ent 0 b c) = 1 / 2
    rw [hd1]
    simp only [hyl, Real.exp_zero, Finset.sum_const, Finset.card_range]
    norm_num
  refine ⟨?_, ?_, by norm_num⟩
  · simp only [hent, Finset.sum_const, Finset.card_range]
    norm_num
  · simp only [hent, Finset.sum_const, Finset.card_range]
    norm_num

/-- C3 counterexample: with an all-zero mask, a one-sample,
one-timestep, one-code batch whose label bit is `1`, lengths `[1]` and
all registered parameters zero, the cost returned by
`build_EHRNN.forward` equals `-log(1e-8) > 0` while the L2 term is `0`;
so the cost excluding the L2 penalty is not zero, refuting the claim. -/
theorem C3_counterexample :
    ((zeroBuild 1 1 1 1 1 1e-8).forward zeroRS zeroRS dropTwo dropTwo
        (zeroT3 1 1 1) ⟨1, 1, 1, fun _ _ _ => 1⟩ (zeroT2 1 1) [1]
        (zeroT2 1 1)).2.2 = -Real.log 1e-8 ∧
      sumSq2 (zeroBuild 1 1 1 1 1 1e-8).W_out = 0 ∧
      0 < -Real.log 1e-8 := by
  have hyh : ∀ t i c,
      ((zeroBuild 1 1 1 1 1 1e-8).yhatMasked zeroRS zeroRS dropTwo dropTwo
        (zeroT3 1 1 1) (zeroT2 1 1)).ent t i c = 0 := by
    intro t i c
    show ((zeroBuild 1 1 1 1 1 1e-8).yhatSoftmax zeroRS zeroRS dropTwo
        dropTwo (zeroT3 1 1 1)).ent t i c * (zeroT2 1 1).ent t i = 0
    show ((zeroBuild 1 1 1 1 1 1e-8).yhatSoftmax zeroRS zeroRS dropTwo
        dropTwo (zeroT3 1 1 1)).ent t i c * 0 = 0
    rw [mul_zero]
  refine ⟨?_, ?_, ?_⟩
  · show (zeroBuild 1 1 1 1 1 1e-8).cost zeroRS zeroRS dropTwo dropTwo
      (zeroT3 1 1 1) ⟨1, 1, 1, fun _ _ _ => 1⟩ (zeroT2 1 1) [1]
      = -Real.log 1e-8
    unfold BuildEHRNN.cost BuildEHRNN.predictionLoss meanT1 divLengths
    unfold sumDim1 sumDim0 BuildEHRNN.crossEntropy sumSq2 BuildEHRNN.W_out
    simp only [hyh, zero_add, sub_zero]
    norm_num [Finset.sum_range_one, zeroBuild]
  · unfold sumSq2 BuildEHRNN.W_out zeroBuild
    simp
  · have h := Real.log_neg (by norm_num : (0:ℝ) < 1e-8)
      (by norm_num : (1e-8:ℝ) < 1)
    linarith

/-- C3 (amended): if the mask tensor is all zeros then the masked
probabilities `yhat` are identically zero, but the returned cost is not
zero in general: every position still contributes
`-(y*log(logEps) + (1-y)*log(1+logEps))` through the smoothing constant
`logEps`, and the cost equals the batch mean of those per-sample sums
divided by the `lengths` entries, plus the L2 term. -/
theorem C3_allzero_mask_cost (m : BuildEHRNN) (r1 r2 : RandSource)
    (drop1 drop2 : ℕ → ℕ → ℕ → ℝ) (x y : T3) (h : T2)
    (lengths : List ℤ) (mask : T2)
    (hmask : ∀ t i, mask.ent t i = 0) :
    (∀ t i c, (m.yhatMasked r1 r2 drop1 drop2 x mask).ent t i c = 0) ∧
      (m.forward r1 r2 drop1 drop2 x y h lengths mask).2.2 =
        (∑ i in Finset.range y.d1,
            (∑ c in Finset.range y.d2, ∑ t in Finset.range y.d0,
              -(y.ent t i c * Real.log m.logEps
                + (1 - y.ent t i c) * Real.log (1 + m.logEps)))
              / ((lengths.getD i 0 : ℤ) : ℝ)) / (y.d1 : ℝ)
          + 0.000001 * sumSq2 m.W_out := by
  have hyh : ∀ t i c,
      (m.yhatMasked r1 r2 drop1 drop2 x mask).ent t i c = 0 := by
    intro t i c
    show (m.yhatSoftmax r1 r2 drop1 drop2 x).ent t i c * mask.ent t i = 0
    rw [hmask, mul_zero]
  refine ⟨hyh, ?_⟩
  show m.cost r1 r2 drop1 drop2 x y mask lengths = _
  unfold BuildEHRNN.cost BuildEHRNN.predictionLoss meanT1 divLengths
  unfold sumDim1 sumDim0 BuildEHRNN.crossEntropy
  simp only [hyh, zero_add, sub_zero]

/-- C3 witness: the amended statement applied to the concrete all-zero
mask and the one-sample batch of the counterexample. -/
theorem C3_allzero_mask_cost_witness :
    (∀ t i c,
      ((zeroBuild 1 1 1 1 1 1e-8).yhatMasked whOneRS whOneRS dropTwo
        dropTwo (zeroT3 1 1 1) (zeroT2 1 1)).ent t i c = 0) ∧
      ((zeroBuild 1 1 1 1 1 1e-8).forward whOneRS whOneRS dropTwo dropTwo
          (zeroT3 1 1 1) ⟨1, 1, 1, fun _ _ _ => 1⟩ (zeroT2 1 1) [1]
          (zeroT2 1 1)).2.2 =
        (∑ i in Finset.range 1,
            (∑ c in Finset.range 1, ∑ t in Finset.range 1,
              -((1 : ℝ) * Real.log 1e-8 + (1 - (1 : ℝ)) * Real.log (1 + 1e-8)))
              / (((([1] : List ℤ).getD i 0) : ℤ) : ℝ)) / ((1 : ℕ) : ℝ)
          + 0.000001 * sumSq2 (zeroBuild 1 1 1 1 1 1e-8).W_out :=
  C3_allzero_mask_cost (zeroBuild 1 1 1 1 1 1e-8) whOneRS whOneRS dropTwo
    dropTwo (zeroT3 1 1 1) ⟨1, 1, 1, fun _ _ _ => 1⟩ (zeroT2 1 1) [1]
    (zeroT2 1 1) (fun _ _ => rfl)

/-- C1: (exhibit of the code bug) the GRU gate weights used by
`build_EHRNN.forward` are freshly sampled `torch.randn` values on every
call — the module registers only `W_emb`, `b_emb`, `W_out`, `b_out` —
so the result of `forward` depends on the per-call draws: with the same
module parameters and the same inputs, the all-zero draw and the
`W_h = 1` draw return different `hidden_state` tensors (`0` versus
`tanh(tanh(tanh 1)) ≠ 0`), which contradicts the claim that the gate
weights are persisted trainable parameters identical across calls. -/
theorem C1_gate_weights_freshly_sampled :
    (oneBEmbBuild.forward zeroRS zeroRS dropTwo dropTwo (zeroT3 1 1 1)
        (zeroT3 1 1 1) (zeroT2 1 1) [1] (zeroT2 1 1)).2.1.ent 0 0 0 = 0 ∧
      (oneBEmbBuild.forward whOneRS whOneRS dropTwo dropTwo (zeroT3 1 1 1)
        (zeroT3 1 1 1) (zeroT2 1 1) [1] (zeroT2 1 1)).2.1.ent 0 0 0
        = Real.tanh (Real.tanh (Real.tanh 1)) ∧
      Real.tanh (Real.tanh (Real.tanh 1)) ≠ 0 := by
  have hs : sigmoid 0 = 1 / 2 := sigmoid_zero
  have hA : ∀ (input : T3) (i j : ℕ),
      (oneBEmbBuild.layerH (mkEHRNN 1 1 1 1 1 zeroRS) input 1).ent i j
        = 0 := by
    intro input i j
    show ((mkEHRNN 1 1 1 1 1 zeroRS).forward (slice3 input 0)
      oneBEmbBuild.init_hidden).ent i j = 0
    simp [EHRNN.forward, mkEHRNN, zeroRS, add2, mul2, oneSub2, map2,
      addBias2, matmul2, EHRNN.W_z, EHRNN.W_r, EHRNN.W_h, EHRNN.U_z,
      EHRNN.U_r, EHRNN.U_h, EHRNN.b_z, EHRNN.b_r, EHRNN.b_h,
      BuildEHRNN.init_hidden, slice3, Real.tanh_zero]
  have hB1 : ∀ (input : T3), input.d2 = 1 → ∀ i j : ℕ,
      (oneBEmbBuild.layerH (mkEHRNN 1 1 1 1 1 whOneRS) input 1).ent i j
        = (1 - sigmoid 0) * Real.tanh (input.ent 0 i 0) := by
    intro input hd i j
    show ((mkEHRNN 1 1 1 1 1 whOneRS).forward (slice3 input 0)
      oneBEmbBuild.init_hidden).ent i j = _
    simp [EHRNN.forward, mkEHRNN, whOneRS, add2, mul2, oneSub2, map2,
      addBias2, matmul2, EHRNN.W_z, EHRNN.W_r, EHRNN.W_h, EHRNN.U_z,
      EHRNN.U_r, EHRNN.U_h, EHRNN.b_z, EHRNN.b_r, EHRNN.b_h,
      BuildEHRNN.init_hidden, slice3, hd, Finset.sum_range_one]
  have hemb : ∀ t i j : ℕ,
      (oneBEmbBuild.emb (zeroT3 1 1 1)).ent t i j = Real.tanh 1 := by
    intro t i j
    simp [BuildEHRNN.emb, map3, addBias3, matmul32, BuildEHRNN.W_emb,
      BuildEHRNN.b_emb, oneBEmbBuild, zeroT3]
  have hh1 : ∀ i j : ℕ,
      (oneBEmbBuild.hidden1 whOneRS dropTwo (zeroT3 1 1 1)).ent 0 i j
        = Real.tanh (Real.tanh 1) := by
    intro i j
    show dropTwo 0 i j *
      ((oneBEmbBuild.layerH (mkEHRNN 1 1 1 1 1 whOneRS)
        (oneBEmbBuild.emb (zeroT3 1 1 1)) 1).ent i j)
      = Real.tanh (Real.tanh 1)
    rw [hB1 (oneBEmbBuild.emb (zeroT3 1 1 1)) rfl i j, hemb, hs]
    show (2 : ℝ) * ((1 - 1 / 2) * Real.tanh (Real.tanh 1)) = _
    ring
  refine ⟨?_, ?_, ?_⟩
  · show dropTwo 0 0 0 *
      ((oneBEmbBuild.layerH (mkEHRNN 1 1 1 1 1 zeroRS)
        (oneBEmbBuild.hidden1 zeroRS dropTwo (zeroT3 1 1 1)) 1).ent 0 0)
      = 0
    rw [hA]
    ring
  · show dropTwo 0 0 0 *
      ((oneBEmbBuild.layerH (mkEHRNN 1 1 1 1 1 whOneRS)
        (oneBEmbBuild.hidden1 whOneRS dropTwo (zeroT3 1 1 1)) 1).ent 0 0)
      = Real.tanh (Real.tanh (Real.tanh 1))
    rw [hB1 (oneBEmbBuild.hidden1 whOneRS dropTwo (zeroT3 1 1 1)) rfl 0 0,
      hh1 0 0, hs]
    show (2 : ℝ) * ((1 - 1 / 2) * Real.tanh (Real.tanh (Real.tanh 1))) = _
    ring
  · exact (tanh_pos_of_pos (tanh_pos_of_pos (tanh_pos_of_pos
      one_pos))).ne'

end DrAI
